import Mathlib

/-!
Verification of the card-generation front-end (src/src/App.tsx) against its
natural-language specification.

The development shallowly embeds the relevant parts of App.tsx:

* the reply-normalization logic of handleGenerate (App.tsx lines 277-293):
  two regular-expression matches that strip an optional markdown code fence,
  a JSON parse of the trimmed remainder, and the container check
  `!data.cards || !Array.isArray(data.cards)`;
* generatePrompt (lines 183-248);
* downloadCSV (lines 301-320) and the card display (lines 705-738),
  viewed through the Card type declared at lines 19-23;
* handleRestart (lines 322-329) and navigateCard (lines 331-340);
* the component state transition performed by handleGenerate, with the
  outbound service call abstracted as a function from the rendered prompt
  to either a failure message or a reply text.

Strings are modelled as List Char.  JavaScript regular-expression matching
for the two concrete patterns used by the code (a literal, a greedy
[\s\S]* group, a literal) is modelled exactly: the match starts at the
leftmost viable position and the greedy group extends to the last
occurrence of the closing literal.
-/

/-! ## Basic string machinery -/

/-- Boolean test that pat is a leading segment of s (char-by-char). -/
def leadsWith : List Char → List Char → Bool
  | [], _ => true
  | _ :: _, [] => false
  | p :: ps, c :: cs => p == c && leadsWith ps cs

/-- All indices i of s (0 ≤ i ≤ length) at which pat occurs. -/
def occs (s pat : List Char) : List Nat :=
  (List.range (s.length + 1)).filter (fun i => leadsWith pat (s.drop i))

/-- Model of JavaScript s.match of a regex of shape A([\s\S]*)B with literals
A and B, returning the captured group: the whole match starts at the leftmost
index i where A occurs with some occurrence of B at least A.length later, and
the greedy group runs to the last occurrence of B.  Returns none when the
regex does not match (null in JavaScript). -/
def greedyMatch (s a b : List Char) : Option (List Char) :=
  match (occs s b).getLast? with
  | none => none
  | some j =>
    match ((occs s a).filter (fun i => decide (i + a.length ≤ j))).head? with
    | none => none
    | some i => some ((s.drop (i + a.length)).take (j - (i + a.length)))

/-- Fence stripping of App.tsx lines 277-280:
response.match of the json-tagged fence pattern, else of the plain fence
pattern, else the response verbatim. -/
def stripFence (response : List Char) : List Char :=
  match greedyMatch response "```json\n".data "\n```".data with
  | some inner => inner
  | none =>
    match greedyMatch response "```".data "```".data with
    | some inner => inner
    | none => response

/-- Whitespace class of JavaScript String.prototype.trim. -/
def isJsWsChar (c : Char) : Bool :=
  c == ' ' || c == '\t' || c == '\n' || c == '\r' || c.toNat == 11 ||
  c.toNat == 12 || c.toNat == 0xa0 || c.toNat == 0x1680 ||
  (0x2000 ≤ c.toNat && c.toNat ≤ 0x200a) || c.toNat == 0x2028 ||
  c.toNat == 0x2029 || c.toNat == 0x202f || c.toNat == 0x205f ||
  c.toNat == 0x3000 || c.toNat == 0xfeff

/-- Leading-whitespace removal. -/
def trimLead (s : List Char) : List Char := s.dropWhile isJsWsChar

/-- Trailing-whitespace removal. -/
def dropTrail (s : List Char) : List Char :=
  (s.reverse.dropWhile isJsWsChar).reverse

/-- Model of JavaScript String.prototype.trim. -/
def jsTrim (s : List Char) : List Char := dropTrail (trimLead s)

/-! ## JSON values and JSON.parse -/

/-- JSON values as produced by JSON.parse.  Numbers keep their source
lexeme: no claim depends on numeric values, only on shapes and on the
zero-test used by JavaScript truthiness. -/
inductive Json where
  | null : Json
  | boolean : Bool → Json
  | num : List Char → Json
  | str : List Char → Json
  | arr : List Json → Json
  | obj : List (List Char × Json) → Json

/-- JSON (RFC 8259) insignificant whitespace. -/
def isJsonWs (c : Char) : Bool :=
  c == ' ' || c == '\t' || c == '\n' || c == '\r'

/-- Skips insignificant JSON whitespace. -/
def skipWs (s : List Char) : List Char := s.dropWhile isJsonWs

/-- Decimal digit test. -/
def isDigitChar (c : Char) : Bool := 48 ≤ c.toNat && c.toNat ≤ 57

/-- Hexadecimal digit value. -/
def hexVal (c : Char) : Option Nat :=
  if 48 ≤ c.toNat ∧ c.toNat ≤ 57 then some (c.toNat - 48)
  else if 97 ≤ c.toNat ∧ c.toNat ≤ 102 then some (c.toNat - 87)
  else if 65 ≤ c.toNat ∧ c.toNat ≤ 70 then some (c.toNat - 55)
  else none

/-- Parses the body of a JSON string after the opening quote, returning the
decoded content and the remainder after the closing quote. -/
def parseStringBody : List Char → Option (List Char × List Char)
  | [] => none
  | c :: rest =>
    if c = '"' then some ([], rest)
    else if c = '\\' then
      match rest with
      | [] => none
      | e :: rest2 =>
        if e = '"' ∨ e = '\\' ∨ e = '/' then
          (parseStringBody rest2).map (fun p => (e :: p.1, p.2))
        else if e = 'b' then
          (parseStringBody rest2).map (fun p => (Char.ofNat 8 :: p.1, p.2))
        else if e = 'f' then
          (parseStringBody rest2).map (fun p => (Char.ofNat 12 :: p.1, p.2))
        else if e = 'n' then
          (parseStringBody rest2).map (fun p => ('\n' :: p.1, p.2))
        else if e = 'r' then
          (parseStringBody rest2).map (fun p => ('\r' :: p.1, p.2))
        else if e = 't' then
          (parseStringBody rest2).map (fun p => ('\t' :: p.1, p.2))
        else if e = 'u' then
          match rest2 with
          | h1 :: h2 :: h3 :: h4 :: rest3 =>
            match hexVal h1, hexVal h2, hexVal h3, hexVal h4 with
            | some a, some b, some c2, some d =>
              (parseStringBody rest3).map
                (fun p => (Char.ofNat (((a * 16 + b) * 16 + c2) * 16 + d) :: p.1, p.2))
            | _, _, _, _ => none
          | _ => none
        else none
    else if c.toNat < 32 then none
    else (parseStringBody rest).map (fun p => (c :: p.1, p.2))

/-- Parses a JSON number starting at s (sign or first digit), returning its
lexeme and the remainder.  Enforces the JSON grammar: no leading zeros, a
fraction dot must be followed by digits, a well-formed exponent is consumed
greedily and a malformed one is left unconsumed (the leftover then fails in
every JSON context, as with JSON.parse). -/
def parseNumberFrom (s : List Char) : Option (Json × List Char) :=
  let sgnSplit : List Char × List Char :=
    match s with
    | '-' :: t => (['-'], t)
    | _ => ([], s)
  let sgn := sgnSplit.1
  let s1 := sgnSplit.2
  let ip := s1.takeWhile isDigitChar
  let s2 := s1.dropWhile isDigitChar
  if ip.isEmpty then none
  else if 1 < ip.length ∧ ip.head? = some '0' then none
  else
    let fpSplit : List Char × List Char :=
      match s2 with
      | '.' :: t => ('.' :: t.takeWhile isDigitChar, t.dropWhile isDigitChar)
      | _ => ([], s2)
    let fp := fpSplit.1
    let s3 := fpSplit.2
    if fp = ['.'] then none
    else
      let expRes : Option (List Char × List Char) :=
        match s3 with
        | c :: t =>
          if c = 'e' ∨ c = 'E' then
            let sg2Split : List Char × List Char :=
              match t with
              | '+' :: u => (['+'], u)
              | '-' :: u => (['-'], u)
              | _ => ([], t)
            let ds := sg2Split.2.takeWhile isDigitChar
            if ds.isEmpty then none
            else some (c :: (sg2Split.1 ++ ds), sg2Split.2.dropWhile isDigitChar)
          else none
        | [] => none
      match expRes with
      | some p => some (.num (sgn ++ ip ++ fp ++ p.1), p.2)
      | none => some (.num (sgn ++ ip ++ fp), s3)

mutual

/-- Fueled parser for one JSON value (no leading whitespace). -/
def parseValue : Nat → List Char → Option (Json × List Char)
  | 0, _ => none
  | _ + 1, [] => none
  | f + 1, c :: rest =>
    if c = '{' then
      match skipWs rest with
      | '}' :: r2 => some (.obj [], r2)
      | s1 => (parseMembers f s1).map (fun p => (.obj p.1, p.2))
    else if c = '[' then
      match skipWs rest with
      | ']' :: r2 => some (.arr [], r2)
      | s1 => (parseElems f s1).map (fun p => (.arr p.1, p.2))
    else if c = '"' then
      (parseStringBody rest).map (fun p => (.str p.1, p.2))
    else if c = 't' then
      if leadsWith "rue".data rest then some (.boolean true, rest.drop 3) else none
    else if c = 'f' then
      if leadsWith "alse".data rest then some (.boolean false, rest.drop 4) else none
    else if c = 'n' then
      if leadsWith "ull".data rest then some (.null, rest.drop 3) else none
    else if c = '-' ∨ isDigitChar c then parseNumberFrom (c :: rest)
    else none

/-- Fueled parser for the elements of a nonempty JSON array, positioned at
the first element (whitespace already skipped). -/
def parseElems : Nat → List Char → Option (List Json × List Char)
  | 0, _ => none
  | f + 1, s =>
    match parseValue f s with
    | none => none
    | some (v, r1) =>
      match skipWs r1 with
      | ',' :: r2 => (parseElems f (skipWs r2)).map (fun p => (v :: p.1, p.2))
      | ']' :: r2 => some ([v], r2)
      | _ => none

/-- Fueled parser for the members of a nonempty JSON object, positioned at
the first key (whitespace already skipped). -/
def parseMembers : Nat → List Char → Option (List (List Char × Json) × List Char)
  | 0, _ => none
  | f + 1, s =>
    match s with
    | '"' :: rest =>
      match parseStringBody rest with
      | none => none
      | some (key, r1) =>
        match skipWs r1 with
        | ':' :: r2 =>
          match parseValue f (skipWs r2) with
          | none => none
          | some (v, r3) =>
            match skipWs r3 with
            | ',' :: r4 => (parseMembers f (skipWs r4)).map (fun p => ((key, v) :: p.1, p.2))
            | '}' :: r4 => some ([(key, v)], r4)
            | _ => none
        | _ => none
    | _ => none

end

/-- Model of JSON.parse: a single JSON value surrounded only by
insignificant whitespace; anything else fails (none models the thrown
SyntaxError). -/
def parseJson (s : List Char) : Option Json :=
  match parseValue (2 * s.length + 4) (skipWs s) with
  | some (j, rest) => if skipWs rest = [] then some j else none
  | none => none

/-! ## JavaScript views of parsed values -/

/-- Model of JavaScript property access data[k] for a parsed JSON value:
objects look the key up (later duplicate keys shadow earlier ones, as in
JSON.parse), every other value has no own string-keyed properties, so the
access yields undefined (none).  The throwing case (a null receiver) is
handled at its use site. -/
def jsGetField : Json → List Char → Option Json
  | .obj fs, k => (fs.reverse.find? (fun p => p.1 == k)).map (fun p => p.2)
  | _, _ => none

/-- Zero test on a JSON number lexeme: every mantissa digit is 0. -/
def numIsZero (lex : List Char) : Bool :=
  ((lex.takeWhile (fun c => !(c == 'e' || c == 'E'))).filter isDigitChar).all
    (fun c => c == '0')

/-- JavaScript truthiness of a parsed JSON value. -/
def jsTruthy : Json → Bool
  | .null => false
  | .boolean b => b
  | .num lex => !(numIsZero lex)
  | .str s => !s.isEmpty
  | .arr _ => true
  | .obj _ => true

/-- Array test, as Array.isArray. -/
def jsIsArray : Json → Bool
  | .arr _ => true
  | _ => false

/-! ## Reply extraction (handleGenerate lines 277-293) -/

/-- Internal stage at which extraction gives up: parseFail when JSON.parse
throws on the fence-stripped, trimmed reply; schemaFail when the parsed
value flunks the container check `!data.cards || !Array.isArray(data.cards)`
(that check also covers the TypeError thrown by accessing .cards on null:
both are caught by the same handler). -/
inductive ExtractStage where
  | parseFail : ExtractStage
  | schemaFail : ExtractStage

/-- Extraction of the card array from a raw reply, recording the stage at
which it fails.  Mirrors App.tsx lines 277-293: fence stripping, trim,
JSON.parse, then the cards-container check, returning data.cards verbatim. -/
def extractStaged (response : List Char) : Except ExtractStage (List Json) :=
  match parseJson (jsTrim (stripFence response)) with
  | none => .error .parseFail
  | some data =>
    match jsGetField data "cards".data with
    | none => .error .schemaFail
    | some v =>
      if jsTruthy v = false then .error .schemaFail
      else
        match v with
        | .arr xs => .ok xs
        | _ => .error .schemaFail

/-- Error message produced by the inner catch of handleGenerate for every
extraction failure (line 292). -/
def parseFailMsg : List Char := "Failed to parse AI response".data

/-- Extraction as observed by the caller of the inner try block: the inner
catch converts both failure stages to the same thrown Error, so only one
message ever escapes. -/
def extractCardSet (response : List Char) : Except (List Char) (List Json) :=
  match extractStaged response with
  | .error _ => .error parseFailMsg
  | .ok cs => .ok cs

/-! ## Cards, CSV export and display -/

/-- Card type selector (App.tsx line 17). -/
inductive CardType where
  | basic : CardType
  | cloze : CardType

/-- Card record as declared at App.tsx lines 19-23: all three fields
optional. -/
structure Card where
  front : Option (List Char)
  back : Option (List Char)
  text : Option (List Char)

/-- JavaScript template-literal interpolation of a possibly missing string
field: an absent field (undefined) renders as the literal text undefined. -/
def templateOfOpt : Option (List Char) → List Char
  | some s => s
  | none => "undefined".data

/-- One CSV row for a basic card (downloadCSV line 307). -/
def basicRow (card : Card) : List Char :=
  "\"".data ++ templateOfOpt card.front ++ "\",\"".data ++
    templateOfOpt card.back ++ "\"".data

/-- One CSV row for a cloze card (downloadCSV line 311). -/
def clozeRow (card : Card) : List Char :=
  "\"".data ++ templateOfOpt card.text ++ "\"".data

/-- Model of Array.prototype.join with a separator. -/
def joinWith (sep : List Char) : List (List Char) → List Char
  | [] => []
  | [x] => x
  | x :: xs => x ++ sep ++ joinWith sep xs

/-- CSV text built by downloadCSV (lines 301-312) for a card list. -/
def downloadCSVText (ct : CardType) (cards : List Card) : List Char :=
  match ct with
  | .basic => "front,back\n".data ++ joinWith "\n".data (cards.map basicRow)
  | .cloze => "text\n".data ++ joinWith "\n".data (cards.map clozeRow)

/-- Card-field rendering used by the preview pane (App.tsx lines 712, 724,
735): currentCard.front || "" substitutes the empty string for a missing
field. -/
def displayHtml : Option (List Char) → List Char
  | none => []
  | some s => if s.isEmpty then [] else s

/-! ## Prompt construction (generatePrompt, lines 183-248) -/

/-- Count instruction used when autoCardCount is on (line 185). -/
def autoCountText : List Char :=
  ("Determine the optimal number of cards based on the content density " ++
   "and complexity. Aim for comprehensive coverage without redundancy " ++
   "(typically 3-20 cards depending on content).").data

/-- Count instruction used when a fixed count n is requested (line 186). -/
def exactCountText (n : Nat) : List Char :=
  "Create exactly ".data ++ (Nat.repr n).data ++ " cards.".data

/-- Count instruction selected by the autoCardCount toggle. -/
def countInstruction (auto : Bool) (countIn : Nat) : List Char :=
  if auto then autoCountText else exactCountText countIn

/-- Per-type format instructions (lines 188-197). -/
def cardTypeInstructions : CardType → List Char
  | .basic =>
    ("Card Format (Basic):\n" ++
     "- \"front\": A clear, specific question that tests one concept\n" ++
     "- \"back\": A concise, accurate answer\n" ++
     "- Example: \x7b\"front\": \"What is the <b>capital</b> of France?\", " ++
     "\"back\": \"<b>Paris</b> - located on the Seine River\"\x7d").data
  | .cloze =>
    ("Card Format (Cloze Deletion):\n" ++
     "- \"text\": A complete sentence with \x7b\x7bc1::hidden term\x7d\x7d syntax\n" ++
     "- Include context clues and hints in parentheses when helpful\n" ++
     "- Example: \x7b\"text\": \"The \x7b\x7bc1::<b>mitochondria</b>\x7d\x7d is " ++
     "the powerhouse of the cell, responsible for \x7b\x7bc2::ATP production\x7d\x7d.\"\x7d").data

/-- Modifications block (lines 199-209): present only when a nonempty
revision instruction is supplied (the empty string is falsy in JavaScript,
so it produces no block). -/
def modificationsSection : Option (List Char) → List Char
  | none => []
  | some c =>
    if c.isEmpty then []
    else
      "\nIMPORTANT - User Modifications Requested:\n".data ++ c ++
      ("\nApply these modifications while maintaining card quality. This may involve:\n" ++
       "- Adjusting difficulty level\n" ++
       "- Focusing on specific topics or concepts\n" ++
       "- Changing the style or format of questions\n" ++
       "- Adding more context or examples\n").data

/-- Schema example embedded in the output-format block (line 220). -/
def schemaExample : CardType → List Char
  | .basic => "\x7b\"front\": \"...\", \"back\": \"...\"\x7d".data
  | .cloze => "\x7b\"text\": \"...\"\x7d".data

/-- Fixed prompt text before the modifications block. -/
def promptP1 : List Char :=
  ("You are an expert educational content creator specializing in spaced " ++
   "repetition flashcards for Anki.\n\n" ++
   "TASK: Generate high-quality flashcards from the provided source material.\n").data

/-- Fixed prompt text between the modifications block and the schema
example. -/
def promptP2 : List Char :=
  ("\nOUTPUT FORMAT:\n" ++
   "Return ONLY valid JSON with no additional text, explanations, or " ++
   "markdown code blocks.\n\n\x7b\n  \"cards\": [\n    ").data

/-- Fixed prompt text between the schema example and the per-type
instructions. -/
def promptP3 : List Char := "\n  ]\n\x7d\n\n".data

/-- Fixed prompt text between the per-type instructions and the count
instruction (rule 1). -/
def promptP4 : List Char := "\n\nCARD GENERATION RULES:\n1. ".data

/-- Fixed prompt text after the count instruction, up to and including the
source-material header. -/
def promptP5 : List Char :=
  ("\n2. Language: Match the language of the source material exactly\n" ++
   "3. Quality Standards:\n" ++
   "   - Each card should test ONE specific concept\n" ++
   "   - Avoid vague or overly broad questions\n" ++
   "   - Include enough context to understand the question\n" ++
   "   - Answers should be accurate and verifiable from the source\n" ++
   "4. HTML Formatting (use sparingly):\n" ++
   "   - <b>bold</b> for key terms and important concepts\n" ++
   "   - <i>italic</i> for hints, translations, or secondary information\n" ++
   "   - Avoid excessive formatting\n" ++
   "5. Content Guidelines:\n" ++
   "   - Prioritize the most important and testable information\n" ++
   "   - Create cards that promote understanding, not just memorization\n" ++
   "   - For technical content, include practical examples when possible\n" ++
   "   - Avoid redundant cards that test the same concept differently\n\n" ++
   "SOURCE MATERIAL:\n").data

/-- Prompt rendered by generatePrompt (lines 183-248): the template with the
modifications block, schema example, per-type instructions, count
instruction and verbatim source text spliced in. -/
def generatePrompt (text : List Char) (ty : CardType) (changes : Option (List Char))
    (auto : Bool) (countIn : Nat) : List Char :=
  promptP1 ++ modificationsSection changes ++ promptP2 ++ schemaExample ty ++
    promptP3 ++ cardTypeInstructions ty ++ promptP4 ++
    countInstruction auto countIn ++ promptP5 ++ text

/-! ## Component state and event handlers -/

/-- Value of the appState state variable (App.tsx line 18). -/
inductive AppPhase where
  | initial : AppPhase
  | generated : AppPhase
  | downloaded : AppPhase

/-- Component state of App relevant to the specified behavior, one field per
useState hook.  generatedCards holds the raw parsed JSON card values, as
stored by setGeneratedCards(data.cards).  currentCardIndex is an integer,
as JavaScript numbers reach -1 in the Math.min(length - 1, ...) expression
on an empty list. -/
structure AppModel where
  cardType : CardType
  inputText : List Char
  suggestedChanges : List Char
  generatedCards : List Json
  currentCardIndex : Int
  appState : AppPhase
  slideDirection : Int
  cardCountInput : Nat
  autoCardCount : Bool
  showSettings : Bool
  apiKey : List Char
  isGenerating : Bool
  error : Option (List Char)

/-- Abstract cursor of the specification (spec section 3): the current index
when the card set is nonempty, undefined (none) when it is empty. -/
def cursor (s : AppModel) : Option Int :=
  if s.generatedCards.isEmpty then none else some s.currentCardIndex

/-- Error message shown when the credential is missing (line 252). -/
def missingKeyMsg : List Char :=
  "Please set your Gemini API key in settings first".data

/-- Prompt dispatched by handleGenerate for a given state: suggestedChanges
is passed only on the apply-changes path (line 262-266). -/
def promptOf (s : AppModel) (isApplyChanges : Bool) : List Char :=
  generatePrompt s.inputText s.cardType
    (if isApplyChanges then some s.suggestedChanges else none)
    s.autoCardCount s.cardCountInput

/-- State transition of handleGenerate (lines 250-299), with the outbound
generateContent call abstracted as service : prompt to failure message or
reply text.  Returns the next state paired with the number of outbound
attempts made (the code contains exactly one generateContent call and no
retry loop).  On a missing key it returns before any request; otherwise one
request is made and, on any failure (transport or extraction), only
isGenerating and error change; on success the card set is replaced
wholesale and the cursor reset. -/
def handleGenerate (s : AppModel) (isApplyChanges : Bool)
    (service : List Char → Except (List Char) (List Char)) : AppModel × Nat :=
  if s.apiKey.isEmpty then
    ({ s with error := some missingKeyMsg, showSettings := true }, 0)
  else
    match service (promptOf s isApplyChanges) with
    | .error msg => ({ s with isGenerating := false, error := some msg }, 1)
    | .ok reply =>
      match extractCardSet reply with
      | .error msg => ({ s with isGenerating := false, error := some msg }, 1)
      | .ok cards =>
        ({ s with isGenerating := false, error := none, generatedCards := cards,
                  currentCardIndex := 0, appState := .generated }, 1)

/-- State transition of handleRestart (lines 322-329). -/
def handleRestart (s : AppModel) : AppModel :=
  { s with generatedCards := [], currentCardIndex := 0, appState := .initial,
           inputText := [], suggestedChanges := [], error := none }

/-- State transition of navigateCard (lines 331-340). -/
def navigateCard (s : AppModel) (direction : Int) : AppModel :=
  { s with slideDirection := direction,
           currentCardIndex :=
             if direction > 0 then
               min ((s.generatedCards.length : Int) - 1) (s.currentCardIndex + 1)
             else
               max 0 (s.currentCardIndex - 1) }

/-! ## Definitions used in the claim statements -/

/-- Statement that pat occurs contiguously inside s. -/
def containsSeg (pat s : List Char) : Prop := ∃ u v, s = u ++ pat ++ v

/-- Boolean occurrence test via the occurrence list. -/
def hasSeg (s pat : List Char) : Bool := !(occs s pat).isEmpty

/-- Claim-side rendering of one CSV field: the field text wrapped verbatim
in double quotes, with no escaping. -/
def quotedField (f : List Char) : List Char := '"' :: (f ++ ['"'])

/-- Claim-side rendering of a basic-card CSV row: quoted front, comma,
quoted back. -/
def claimRowBasic (c : Card) : List Char :=
  quotedField (templateOfOpt c.front) ++ ',' :: quotedField (templateOfOpt c.back)

/-- Claim-side rendering of a cloze-card CSV row: one quoted text field. -/
def claimRowCloze (c : Card) : List Char :=
  quotedField (templateOfOpt c.text)

/-- JSON body used by the round-trip claim. -/
def c1Body : List Char :=
  "\x7b\"cards\":[\x7b\"front\":\"a\",\"back\":\"b\"\x7d]\x7d".data

/-- Parsed card value of that body. -/
def c1Card : Json :=
  Json.obj [("front".data, Json.str "a".data), ("back".data, Json.str "b".data)]

/-- Reply that is itself valid JSON but contains two triple-backtick runs
inside a string literal. -/
def backtickBody : List Char := "\x7b\"cards\":[\"``` ```\"]\x7d".data

/-- Concrete state used to instantiate the navigation claim. -/
def navState : AppModel :=
  { cardType := .basic, inputText := [], suggestedChanges := [],
    generatedCards := [Json.null], currentCardIndex := 0, appState := .generated,
    slideDirection := 0, cardCountInput := 5, autoCardCount := false,
    showSettings := false, apiKey := [], isGenerating := false, error := none }

/-- Concrete state with a nonempty credential, used to instantiate the
failure-path claim. -/
def keyedState : AppModel :=
  { cardType := .basic, inputText := "x".data, suggestedChanges := [],
    generatedCards := [Json.null], currentCardIndex := 0, appState := .generated,
    slideDirection := 0, cardCountInput := 5, autoCardCount := false,
    showSettings := false, apiKey := "k".data, isGenerating := false, error := none }

/-- Concrete state with an empty credential, used to instantiate the
missing-credential claim. -/
def keylessState : AppModel :=
  { keyedState with apiKey := [] }

/-- Character of s at index i, if any. -/
def charAt (s : List Char) (i : Nat) : Option Char := (s.drop i).head?

/-! ## Supporting lemmas -/

theorem leadsWith_append (p t : List Char) : leadsWith p (p ++ t) = true := by
  induction p with
  | nil => rfl
  | cons a p ih => simp [leadsWith, ih]

theorem dropAppendLen (xs ys : List Char) : (xs ++ ys).drop xs.length = ys := by
  induction xs with
  | nil => rfl
  | cons a xs ih => simp [ih]

theorem takeAppendLen (xs ys : List Char) : (xs ++ ys).take xs.length = xs := by
  induction xs with
  | nil => rfl
  | cons a xs ih => simp [ih]

theorem containsSeg_hasSeg {pat s : List Char} (h : containsSeg pat s) :
    hasSeg s pat = true := by
  obtain ⟨u, v, rfl⟩ := h
  have hmem : u.length ∈ occs (u ++ pat ++ v) pat := by
    apply List.mem_filter.2
    constructor
    · apply List.mem_range.2
      simp only [List.length_append]
      omega
    · have : (u ++ pat ++ v).drop u.length = pat ++ v := by
        rw [List.append_assoc]
        exact dropAppendLen u (pat ++ v)
      simp [this, leadsWith_append]
  have hne : occs (u ++ pat ++ v) pat ≠ [] := List.ne_nil_of_mem hmem
  rw [List.append_assoc] at hne
  simp [hasSeg, List.isEmpty_iff, hne]

theorem containsSeg_mono {p q s : List Char} (h : containsSeg (p ++ q) s) :
    containsSeg p s := by
  obtain ⟨u, v, rfl⟩ := h
  exact ⟨u, q ++ v, by simp [List.append_assoc]⟩

theorem rowEqBasic (c : Card) : basicRow c = claimRowBasic c := by
  show ['"'] ++ templateOfOpt c.front ++ ['"', ',', '"'] ++ templateOfOpt c.back ++ ['"'] =
    claimRowBasic c
  simp [claimRowBasic, quotedField, List.append_assoc]

theorem rowEqCloze (c : Card) : clozeRow c = claimRowCloze c := by
  show ['"'] ++ templateOfOpt c.text ++ ['"'] = claimRowCloze c
  simp [claimRowCloze, quotedField]

/-! ## Claims -/

/-- Claim C1: every reply that is a fenced code block (json-tagged or plain)
whose interior is the object with a cards array holding the front-a back-b
card extracts successfully to exactly that one-element sequence; the array
under cards is returned without per-card validation, so a card that is an
empty object also passes through unchanged. -/
theorem claim_C1 (r : List Char)
    (h : r = "```json\n".data ++ c1Body ++ "\n```".data ∨
         r = "```".data ++ c1Body ++ "```".data) :
    extractStaged r = .ok [c1Card] ∧
    extractStaged "```json\n\x7b\"cards\":[\x7b\x7d]\x7d\n```".data = .ok [Json.obj []] := by
  rcases h with rfl | rfl
  · exact ⟨rfl, rfl⟩
  · exact ⟨rfl, rfl⟩

/-- Witness for claim C1 at the json-tagged fence. -/
theorem claim_C1_witness :
    extractStaged ("```json\n".data ++ c1Body ++ "\n```".data) = .ok [c1Card] :=
  (claim_C1 _ (Or.inl rfl)).1

/-- Claim C2, counterexample to the distinguishability part: the two
canonical inputs of the claim (text that is not JSON at all, and JSON whose
top level lacks an array-valued cards field) produce identical results for
the caller, because the inner catch of handleGenerate rethrows every
extraction failure as the same error.  The caller therefore cannot
distinguish the two failure kinds. -/
theorem claim_C2_counterexample :
    extractCardSet "not json".data = extractCardSet "\x7b\"notcards\": []\x7d".data ∧
    extractCardSet "not json".data = .error parseFailMsg := ⟨rfl, rfl⟩

/-- Claim C2 (amended): a reply whose fence-stripped trimmed text is not
well-formed JSON fails at the parse stage, and a reply parsing to JSON
without an array-valued cards field fails at the (distinct) schema stage;
but every failure is surfaced to the caller as the same error message, so
the two stages are not distinguishable from outside. -/
theorem claim_C2_amended :
    (∀ r, parseJson (jsTrim (stripFence r)) = none →
      extractStaged r = .error .parseFail) ∧
    (∀ r j, parseJson (jsTrim (stripFence r)) = some j →
      (∀ xs, jsGetField j "cards".data ≠ some (Json.arr xs)) →
      extractStaged r = .error .schemaFail) ∧
    ExtractStage.parseFail ≠ ExtractStage.schemaFail ∧
    (∀ r st, extractStaged r = .error st → extractCardSet r = .error parseFailMsg) := by
  refine ⟨?_, ?_, ?_, ?_⟩
  · intro r h
    simp [extractStaged, h]
  · intro r j hp hno
    simp only [extractStaged, hp]
    cases hg : jsGetField j "cards".data with
    | none => rfl
    | some v =>
      cases htr : jsTruthy v with
      | false => simp [htr]
      | true =>
        simp only [htr]
        cases v with
        | arr xs => exact absurd hg (hno xs)
        | null => rfl
        | boolean b => rfl
        | num l => rfl
        | str s => rfl
        | obj fs => rfl
  · exact fun h => ExtractStage.noConfusion h
  · intro r st h
    simp [extractCardSet, h]

/-- Witness for claim C2 at the two canonical inputs. -/
theorem claim_C2_witness :
    extractStaged "not json".data = .error .parseFail ∧
    extractStaged "\x7b\"notcards\": []\x7d".data = .error .schemaFail ∧
    extractCardSet "not json".data = .error parseFailMsg :=
  ⟨claim_C2_amended.1 _ rfl,
   claim_C2_amended.2.1 _ (Json.obj [("notcards".data, Json.arr [])]) rfl
     (fun xs h =>
       Option.noConfusion (show (none : Option Json) = some (Json.arr xs) from h)),
   claim_C2_amended.2.2.2 _ ExtractStage.parseFail (claim_C2_amended.1 _ rfl)⟩

/-- Claim C4: after the restart action, from any state, the card set is
empty, the abstract cursor of the specification is undefined, the pending
revision instruction is cleared, and the phase returns to initial. -/
theorem claim_C4 (s : AppModel) :
    (handleRestart s).generatedCards = [] ∧
    cursor (handleRestart s) = none ∧
    (handleRestart s).suggestedChanges = [] ∧
    (handleRestart s).appState = .initial :=
  ⟨rfl, rfl, rfl, rfl⟩

/-- Claim C5: CSV export with kind Basic is the header row front,back
followed by one row per card in card order, each field wrapped verbatim in
double quotes with a comma between the two fields; with kind Cloze it is
the header row text followed by one quoted-field row per card; embedded
quote and newline characters are not escaped beyond the wrapping quotes, as
the concrete row shows. -/
theorem claim_C5 (cards : List Card) :
    downloadCSVText .basic cards =
      "front,back\n".data ++ joinWith "\n".data (cards.map claimRowBasic) ∧
    downloadCSVText .cloze cards =
      "text\n".data ++ joinWith "\n".data (cards.map claimRowCloze) ∧
    basicRow { front := some "a\"b".data, back := some "c\nd".data, text := none } =
      "\"a\"b\",\"c\nd\"".data := by
  refine ⟨?_, ?_, rfl⟩
  · show "front,back\n".data ++ joinWith "\n".data (cards.map basicRow) = _
    rw [show basicRow = claimRowBasic from funext rowEqBasic]
  · show "text\n".data ++ joinWith "\n".data (cards.map clozeRow) = _
    rw [show clozeRow = claimRowCloze from funext rowEqCloze]

/-- Claim C6: on a nonempty card set with the cursor in range, navigating
next from the last index and previous from index 0 are no-ops, every
navigation keeps the cursor in range, and navigation does not change the
card set. -/
theorem claim_C6 (s : AppModel) (d : Int)
    (h1 : s.generatedCards ≠ []) (h2 : 0 ≤ s.currentCardIndex)
    (h3 : s.currentCardIndex < s.generatedCards.length) :
    (0 ≤ (navigateCard s d).currentCardIndex ∧
     (navigateCard s d).currentCardIndex < s.generatedCards.length) ∧
    (s.currentCardIndex = (s.generatedCards.length : Int) - 1 →
      (navigateCard s 1).currentCardIndex = s.currentCardIndex) ∧
    (s.currentCardIndex = 0 → (navigateCard s (-1)).currentCardIndex = 0) ∧
    (navigateCard s d).generatedCards = s.generatedCards := by
  have hlen : 0 < s.generatedCards.length := List.length_pos.2 h1
  refine ⟨?_, ?_, ?_, rfl⟩
  · by_cases hd : d > 0 <;>
      simp only [navigateCard, hd, if_true, if_false, min_def, max_def] <;>
      split_ifs <;> omega
  · intro hlast
    simp only [navigateCard, show (1 : Int) > 0 from by decide, if_true, min_def]
    split_ifs <;> omega
  · intro h0
    simp only [navigateCard, show ¬((-1 : Int) > 0) from by decide, if_false, max_def]
    split_ifs <;> omega

/-- Witness for claim C6 at a concrete one-card state. -/
theorem claim_C6_witness :
    (0 ≤ (navigateCard navState 1).currentCardIndex ∧
     (navigateCard navState 1).currentCardIndex < navState.generatedCards.length) ∧
    (navState.currentCardIndex = (navState.generatedCards.length : Int) - 1 →
      (navigateCard navState 1).currentCardIndex = navState.currentCardIndex) ∧
    (navState.currentCardIndex = 0 → (navigateCard navState (-1)).currentCardIndex = 0) ∧
    (navigateCard navState 1).generatedCards = navState.generatedCards :=
  claim_C6 navState 1 (by simp [navState]) (by decide) (by decide)

/-- Claim C7: when the credential is present and the attempt fails (the
transport call fails, or extraction of the reply fails at either stage),
the card set, the cursor and the phase are unchanged, and exactly one
outbound attempt is made. -/
theorem claim_C7 (s : AppModel) (a : Bool)
    (service : List Char → Except (List Char) (List Char))
    (hk : s.apiKey.isEmpty = false)
    (hfail : (∃ m, service (promptOf s a) = .error m) ∨
             (∃ rep, service (promptOf s a) = .ok rep ∧
               ∃ m, extractCardSet rep = .error m)) :
    (handleGenerate s a service).1.generatedCards = s.generatedCards ∧
    (handleGenerate s a service).1.currentCardIndex = s.currentCardIndex ∧
    (handleGenerate s a service).1.appState = s.appState ∧
    (handleGenerate s a service).2 = 1 := by
  rcases hfail with ⟨m, hm⟩ | ⟨rep, hrep, m, hm⟩
  · simp [handleGenerate, hk, hm]
  · simp [handleGenerate, hk, hrep, hm]

/-- Witness for claim C7 with a service that always fails. -/
theorem claim_C7_witness :
    (handleGenerate keyedState false (fun _ => .error "boom".data)).1.generatedCards =
      keyedState.generatedCards ∧
    (handleGenerate keyedState false (fun _ => .error "boom".data)).1.currentCardIndex =
      keyedState.currentCardIndex ∧
    (handleGenerate keyedState false (fun _ => .error "boom".data)).1.appState =
      keyedState.appState ∧
    (handleGenerate keyedState false (fun _ => .error "boom".data)).2 = 1 :=
  claim_C7 keyedState false _ rfl (Or.inl ⟨"boom".data, rfl⟩)

/-- Claim C8: a generation attempt with an empty credential makes no
outbound request, opens the settings view, shows an error message, and
leaves all other modelled state unchanged. -/
theorem claim_C8 (s : AppModel) (a : Bool)
    (service : List Char → Except (List Char) (List Char))
    (hk : s.apiKey.isEmpty = true) :
    (handleGenerate s a service).2 = 0 ∧
    (handleGenerate s a service).1.showSettings = true ∧
    (handleGenerate s a service).1.error = some missingKeyMsg ∧
    (handleGenerate s a service).1.generatedCards = s.generatedCards ∧
    (handleGenerate s a service).1.currentCardIndex = s.currentCardIndex ∧
    (handleGenerate s a service).1.appState = s.appState ∧
    (handleGenerate s a service).1.inputText = s.inputText ∧
    (handleGenerate s a service).1.isGenerating = s.isGenerating := by
  simp [handleGenerate, hk]

/-- Witness for claim C8 at a concrete keyless state. -/
theorem claim_C8_witness :
    (handleGenerate keylessState false (fun _ => .error "x".data)).2 = 0 ∧
    (handleGenerate keylessState false (fun _ => .error "x".data)).1.showSettings = true ∧
    (handleGenerate keylessState false (fun _ => .error "x".data)).1.error =
      some missingKeyMsg ∧
    (handleGenerate keylessState false (fun _ => .error "x".data)).1.generatedCards =
      keylessState.generatedCards ∧
    (handleGenerate keylessState false (fun _ => .error "x".data)).1.currentCardIndex =
      keylessState.currentCardIndex ∧
    (handleGenerate keylessState false (fun _ => .error "x".data)).1.appState =
      keylessState.appState ∧
    (handleGenerate keylessState false (fun _ => .error "x".data)).1.inputText =
      keylessState.inputText ∧
    (handleGenerate keylessState false (fun _ => .error "x".data)).1.isGenerating =
      keylessState.isGenerating :=
  claim_C8 keylessState false _ rfl

/-- Claim C10: a card lacking the field selected by the card kind is
exported with the literal text undefined inside the wrapping quotes (shown
for the basic back field and for the cloze text field, the latter through
the full CSV output), while the card display substitutes the empty string
for the same missing field; undefined is not the empty string. -/
theorem claim_C10 (c : Card) :
    (c.back = none →
      basicRow c = quotedField (templateOfOpt c.front) ++ ',' :: quotedField "undefined".data) ∧
    (c.text = none → downloadCSVText .cloze [c] = "text\n\"undefined\"".data) ∧
    (c.back = none → displayHtml c.back = []) ∧
    "undefined".data ≠ [] := by
  refine ⟨?_, ?_, ?_, by decide⟩
  · intro h
    rw [rowEqBasic]
    simp [claimRowBasic, h, templateOfOpt]
  · intro h
    simp [downloadCSVText, joinWith, clozeRow, h, templateOfOpt]
  · intro h
    rw [h]
    rfl

/-- Witness for claim C10 at a card with a front and no back or text. -/
theorem claim_C10_witness :
    basicRow { front := some "q".data, back := none, text := none } =
      quotedField (templateOfOpt (some "q".data)) ++ ',' :: quotedField "undefined".data ∧
    downloadCSVText .cloze [{ front := some "q".data, back := none, text := none }] =
      "text\n\"undefined\"".data ∧
    displayHtml (Card.back { front := some "q".data, back := none, text := none }) = [] :=
  ⟨(claim_C10 _).1 rfl, (claim_C10 _).2.1 rfl, (claim_C10 _).2.2.1 rfl⟩

set_option maxRecDepth 8000 in
/-- Claim C9: with a fixed count n in 1..50 the rendered prompt contains the
instruction requiring exactly n cards; with the automatic policy it contains
the density-based instruction (typically 3-20 cards), and that instruction
never contains an exact-count instruction for any m; the bounds 1 and 50 are
those enforced by the count input. -/
theorem claim_C9 (text : List Char) (ty : CardType) (changes : Option (List Char))
    (n : Nat) (_h1 : 1 ≤ n) (_h50 : n ≤ 50) :
    containsSeg (exactCountText n) (generatePrompt text ty changes false n) ∧
    containsSeg autoCountText (generatePrompt text ty changes true n) ∧
    (∀ m, ¬ containsSeg (exactCountText m) autoCountText) := by
  refine ⟨?_, ?_, ?_⟩
  · exact ⟨promptP1 ++ modificationsSection changes ++ promptP2 ++ schemaExample ty ++
      promptP3 ++ cardTypeInstructions ty ++ promptP4, promptP5 ++ text,
      by simp [generatePrompt, countInstruction, List.append_assoc]⟩
  · exact ⟨promptP1 ++ modificationsSection changes ++ promptP2 ++ schemaExample ty ++
      promptP3 ++ cardTypeInstructions ty ++ promptP4, promptP5 ++ text,
      by simp [generatePrompt, countInstruction, List.append_assoc]⟩
  · intro m hm
    have hc : containsSeg "Create exactly ".data autoCountText :=
      containsSeg_mono (p := "Create exactly ".data)
        (q := (Nat.repr m).data ++ " cards.".data) hm
    have := containsSeg_hasSeg hc
    rw [show hasSeg autoCountText "Create exactly ".data = false from by decide] at this
    exact Bool.noConfusion this

/-- Witness for claim C9 at a concrete request. -/
theorem claim_C9_witness :
    containsSeg (exactCountText 5)
      (generatePrompt "Paris is the capital of France.".data .basic none false 5) ∧
    containsSeg autoCountText
      (generatePrompt "Paris is the capital of France.".data .basic none true 5) ∧
    (∀ m, ¬ containsSeg (exactCountText m) autoCountText) :=
  claim_C9 "Paris is the capital of France.".data .basic none 5 (by decide) (by decide)

/-- Claim C3, counterexample: a reply that is itself a well-formed JSON body
but contains two triple-backtick runs inside a string extracts differently
with and without a plain fence around it: unfenced, the fence regex fires on
the embedded backticks and extraction fails; fenced, it succeeds. -/
theorem claim_C3_counterexample :
    parseJson (jsTrim backtickBody) =
      some (Json.obj [("cards".data, Json.arr [Json.str "``` ```".data])]) ∧
    extractCardSet ("```".data ++ backtickBody ++ "```".data) ≠
      extractCardSet backtickBody :=
  ⟨rfl, fun h =>
    Except.noConfusion
      (show (Except.ok [Json.str "``` ```".data] : Except (List Char) (List Json)) =
        Except.error parseFailMsg from h)⟩

/-! ## String-combinatorics lemmas for the fence model -/

theorem leadsWith_self (p : List Char) : leadsWith p p = true := by
  have := leadsWith_append p []
  simpa using this

theorem leadsWith_iff (p x : List Char) : leadsWith p x = true ↔ ∃ t, x = p ++ t := by
  induction p generalizing x with
  | nil => simp [leadsWith]
  | cons a p ih =>
    cases x with
    | nil => simp [leadsWith]
    | cons c cs =>
      simp only [leadsWith, Bool.and_eq_true, beq_iff_eq, ih, List.cons_append,
        List.cons.injEq]
      constructor
      · rintro ⟨rfl, t, rfl⟩
        exact ⟨t, rfl, rfl⟩
      · rintro ⟨t, rfl, rfl⟩
        exact ⟨rfl, t, rfl⟩

theorem leadsWith_cancel (a b c : List Char) :
    leadsWith (a ++ b) (a ++ c) = leadsWith b c := by
  induction a with
  | nil => rfl
  | cons x a ih => simp [leadsWith, ih]

theorem leadsWith_of_long (p x y : List Char) (h : p.length ≤ x.length) :
    leadsWith p (x ++ y) = leadsWith p x := by
  induction p generalizing x with
  | nil => simp [leadsWith]
  | cons a p ih =>
    cases x with
    | nil => simp at h
    | cons c cs =>
      show (a == c && leadsWith p (cs ++ y)) = (a == c && leadsWith p cs)
      rw [ih cs (by simpa using h)]

theorem charAt_cons_succ (a : Char) (l : List Char) (i : Nat) :
    charAt (a :: l) (i + 1) = charAt l i := rfl

theorem charAt_append_left (xs ys : List Char) (i : Nat) (h : i < xs.length) :
    charAt (xs ++ ys) i = charAt xs i := by
  induction xs generalizing i with
  | nil => exact absurd h (Nat.not_lt_zero i)
  | cons a xs ih =>
    cases i with
    | zero => rfl
    | succ i =>
      rw [List.cons_append, charAt_cons_succ, charAt_cons_succ]
      exact ih i (by simpa using h)

theorem charAt_append_right (xs ys : List Char) (i : Nat) (h : xs.length ≤ i) :
    charAt (xs ++ ys) i = charAt ys (i - xs.length) := by
  induction xs generalizing i with
  | nil => simp
  | cons a xs ih =>
    cases i with
    | zero => simp at h
    | succ i =>
      rw [List.cons_append, charAt_cons_succ]
      rw [ih i (by simpa using h)]
      simp [Nat.succ_sub_succ]

theorem charAt_drop (s : List Char) (i k : Nat) :
    charAt (s.drop i) k = charAt s (i + k) := by
  unfold charAt
  rw [List.drop_drop]

theorem charAt_lt (s : List Char) (i : Nat) (c : Char) (h : charAt s i = some c) :
    i < s.length := by
  by_contra hge
  have : s.drop i = [] := List.drop_eq_nil_of_le (by omega)
  rw [charAt, this] at h
  exact Option.noConfusion h

theorem mem_of_charAt (s : List Char) (i : Nat) (c : Char) (h : charAt s i = some c) :
    c ∈ s := by
  induction s generalizing i with
  | nil => rw [charAt, List.drop_nil] at h; exact Option.noConfusion h
  | cons a l ih =>
    cases i with
    | zero =>
      have h2 : a = c := Option.some.inj h
      subst h2
      exact List.mem_cons_self a l
    | succ i =>
      rw [charAt_cons_succ] at h
      exact List.mem_cons_of_mem a (ih i h)

theorem leadsWith_charAt {p x : List Char} (h : leadsWith p x = true) (k : Nat)
    (hk : k < p.length) : charAt x k = charAt p k := by
  obtain ⟨t, rfl⟩ := (leadsWith_iff p x).1 h
  exact charAt_append_left p t k hk

theorem mem_of_mem_dropN (c : Char) (s : List Char) (n : Nat) (h : c ∈ s.drop n) :
    c ∈ s := by
  induction n generalizing s with
  | zero => exact h
  | succ n ih =>
    cases s with
    | nil => exact h
    | cons a l => exact List.mem_cons_of_mem a (ih l h)

theorem filterRangeLast (p : Nat → Bool) (m : Nat) :
    ∀ n, m ≤ n → p m = true → (∀ i, i ≤ n → p i = true → i ≤ m) →
      ((List.range (n + 1)).filter p).getLast? = some m := by
  intro n
  induction n with
  | zero =>
    intro hm hpm _
    have hm0 : m = 0 := by omega
    subst hm0
    simp [show List.range 1 = [0] from rfl, List.filter, hpm]
  | succ n ih =>
    intro hm hpm hmax
    rw [List.range_succ, List.filter_append]
    cases hpn : p (n + 1) with
    | true =>
      have hle : n + 1 ≤ m := hmax (n + 1) (Nat.le_refl _) hpn
      have hmn : m = n + 1 := by omega
      subst hmn
      simp [List.filter, hpn]
    | false =>
      have hmne : m ≠ n + 1 := fun h => by rw [h, hpn] at hpm; exact Bool.noConfusion hpm
      simp only [List.filter, hpn, List.append_nil]
      exact ih (by omega) hpm (fun i hi hpi => hmax i (by omega) hpi)

theorem filterRangeHeadZero (p : Nat → Bool) (n : Nat) (hp : p 0 = true) :
    ((List.range (n + 1)).filter p).head? = some 0 := by
  rw [List.range_succ_eq_map]
  simp [List.filter, hp]

theorem greedy_eval (s a b : List Char) (j : Nat)
    (hjle : j ≤ s.length)
    (hj : leadsWith b (s.drop j) = true)
    (hjmax : ∀ k, k ≤ s.length → leadsWith b (s.drop k) = true → k ≤ j)
    (ha : leadsWith a s = true) (hal : a.length ≤ j) :
    greedyMatch s a b = some ((s.drop a.length).take (j - a.length)) := by
  have hlast : (occs s b).getLast? = some j := by
    apply filterRangeLast _ _ _ hjle hj
    intro i hi hpi
    exact hjmax i (by omega) hpi
  have hhead :
      ((occs s a).filter (fun i => decide (i + a.length ≤ j))).head? = some 0 := by
    unfold occs
    rw [List.filter_filter]
    apply filterRangeHeadZero
    simp only [List.drop_zero, Nat.zero_add, Bool.and_eq_true, decide_eq_true_eq]
    exact ⟨hal, ha⟩
  simp [greedyMatch, hlast, hhead]

theorem greedy_noA (s a b : List Char)
    (h : ∀ k, k ≤ s.length → leadsWith a (s.drop k) = false) :
    greedyMatch s a b = none := by
  have hocc : occs s a = [] := by
    rw [occs, List.filter_eq_nil_iff]
    intro i hi
    rw [h i (by have := List.mem_range.1 hi; omega)]
    exact Bool.false_ne_true
  unfold greedyMatch
  cases hlast : (occs s b).getLast? with
  | none => rfl
  | some j => simp [hocc]

theorem greedy_noB (s a b : List Char)
    (h : ∀ k, k ≤ s.length → leadsWith b (s.drop k) = false) :
    greedyMatch s a b = none := by
  have hocc : occs s b = [] := by
    rw [occs, List.filter_eq_nil_iff]
    intro i hi
    rw [h i (by have := List.mem_range.1 hi; omega)]
    exact Bool.false_ne_true
  unfold greedyMatch
  rw [hocc]
  rfl

theorem noTickNoOcc (s pat : List Char) (hp : '`' ∈ pat)
    (hs : ∀ c ∈ s, c ≠ '`') :
    ∀ k, k ≤ s.length → leadsWith pat (s.drop k) = false := by
  intro k _
  cases h : leadsWith pat (s.drop k) with
  | false => rfl
  | true =>
    exfalso
    obtain ⟨t, ht⟩ := (leadsWith_iff _ _).1 h
    have hmem : '`' ∈ s.drop k := ht ▸ List.mem_append.2 (Or.inl hp)
    exact hs _ (mem_of_mem_dropN _ _ _ hmem) rfl

theorem stripFence_tickFree (s : List Char) (hs : ∀ c ∈ s, c ≠ '`') :
    stripFence s = s := by
  have g1 : greedyMatch s "```json\n".data "\n```".data = none :=
    greedy_noB _ _ _ (noTickNoOcc s "\n```".data (by decide) hs)
  have g2 : greedyMatch s "```".data "```".data = none :=
    greedy_noB _ _ _ (noTickNoOcc s "```".data (by decide) hs)
  simp [stripFence, g1, g2]

theorem tickAt (u r v : List Char) (hr : ∀ c ∈ r, c ≠ '`') (p : Nat)
    (h : charAt (u ++ r ++ v) p = some '`') :
    (p < u.length ∧ charAt u p = some '`') ∨
    (u.length + r.length ≤ p ∧ charAt v (p - u.length - r.length) = some '`') := by
  rw [List.append_assoc] at h
  by_cases hp : p < u.length
  · left
    exact ⟨hp, by rw [← charAt_append_left u (r ++ v) p hp]; exact h⟩
  · have h2 : charAt (r ++ v) (p - u.length) = some '`' := by
      rw [← charAt_append_right u (r ++ v) p (by omega)]
      exact h
    by_cases hq : p - u.length < r.length
    · exfalso
      have : charAt r (p - u.length) = some '`' := by
        rw [← charAt_append_left r v _ hq]
        exact h2
      exact hr _ (mem_of_charAt _ _ _ this) rfl
    · right
      refine ⟨by omega, ?_⟩
      rw [← charAt_append_right r v _ (by omega)]
      exact h2

theorem stripFence_jsonWrap (r : List Char) (hr : ∀ c ∈ r, c ≠ '`') :
    stripFence ("```json\n".data ++ r ++ "\n```".data) = r := by
  have hu : ("```json\n".data).length = 8 := rfl
  have hv : ("\n```".data).length = 4 := rfl
  have hurlen : ("```json\n".data ++ r).length = r.length + 8 := by
    rw [List.length_append, hu]; omega
  have hslen : ("```json\n".data ++ r ++ "\n```".data).length = r.length + 12 := by
    rw [List.length_append, hurlen, hv]
  have fu : ∀ p, p < 8 → charAt "```json\n".data p = some '`' → p < 3 := by decide
  have fv_nl : ∀ p, p < 4 → charAt "\n```".data p = some '\n' → p = 0 := by decide
  have hjle : r.length + 8 ≤ ("```json\n".data ++ r ++ "\n```".data).length := by
    rw [hslen]; omega
  have hj : leadsWith "\n```".data
      (("```json\n".data ++ r ++ "\n```".data).drop (r.length + 8)) = true := by
    rw [show r.length + 8 = ("```json\n".data ++ r).length from by rw [hurlen],
      dropAppendLen]
    exact leadsWith_self _
  have hjmax : ∀ k, k ≤ ("```json\n".data ++ r ++ "\n```".data).length →
      leadsWith "\n```".data (("```json\n".data ++ r ++ "\n```".data).drop k) = true →
      k ≤ r.length + 8 := by
    intro k hk hlw
    have e0 : charAt ("```json\n".data ++ r ++ "\n```".data) k = some '\n' := by
      have h0 := leadsWith_charAt hlw 0 (by rw [hv]; omega)
      rw [charAt_drop, Nat.add_zero] at h0
      rw [h0]; rfl
    have e1 : charAt ("```json\n".data ++ r ++ "\n```".data) (k + 1) = some '`' := by
      have h0 := leadsWith_charAt hlw 1 (by rw [hv]; omega)
      rw [charAt_drop] at h0
      rw [h0]; rfl
    have e3 : charAt ("```json\n".data ++ r ++ "\n```".data) (k + 3) = some '`' := by
      have h0 := leadsWith_charAt hlw 3 (by rw [hv]; omega)
      rw [charAt_drop] at h0
      rw [h0]; rfl
    rcases tickAt _ r _ hr (k + 1) e1 with ⟨hlt, hc⟩ | ⟨hge, _⟩
    · rw [hu] at hlt
      have h13 : k + 1 < 3 := fu _ hlt hc
      rcases tickAt _ r _ hr (k + 3) e3 with ⟨hlt3, hc3⟩ | ⟨hge3, _⟩
      · rw [hu] at hlt3
        have h33 : k + 3 < 3 := fu _ hlt3 hc3
        omega
      · rw [hu] at hge3
        omega
    · rw [hu] at hge
      by_contra hgt
      push_neg at hgt
      have hgoal := charAt_append_right ("```json\n".data ++ r) "\n```".data k
        (by rw [hurlen]; omega)
      rw [hurlen] at hgoal
      have hnl : charAt "\n```".data (k - (r.length + 8)) = some '\n' := by
        rw [← hgoal]; exact e0
      have hlt4 : k - (r.length + 8) < 4 := by
        have := charAt_lt _ _ _ hnl
        rw [hv] at this
        exact this
      have := fv_nl _ hlt4 hnl
      omega
  have ha : leadsWith "```json\n".data ("```json\n".data ++ r ++ "\n```".data) = true := by
    rw [List.append_assoc]
    exact leadsWith_append _ _
  have hal : ("```json\n".data).length ≤ r.length + 8 := by rw [hu]; omega
  have hmain := greedy_eval _ _ _ (r.length + 8) hjle hj hjmax ha hal
  have hint : ((("```json\n".data ++ r ++ "\n```".data).drop
      (("```json\n".data).length)).take (r.length + 8 - ("```json\n".data).length)) = r := by
    rw [List.append_assoc, dropAppendLen, hu, Nat.add_sub_cancel, takeAppendLen]
  rw [hint] at hmain
  unfold stripFence
  rw [hmain]

theorem stripFence_plainWrap (r : List Char) (hr : ∀ c ∈ r, c ≠ '`')
    (hne : r ≠ []) (hnj : leadsWith "json\n".data r = false) :
    stripFence ("```".data ++ r ++ "```".data) = r := by
  have hu3 : ("```".data).length = 3 := rfl
  have hurlen : ("```".data ++ r).length = r.length + 3 := by
    rw [List.length_append, hu3]; omega
  have hslen : ("```".data ++ r ++ "```".data).length = r.length + 6 := by
    rw [List.length_append, hurlen, hu3]
  have hlen1 : 1 ≤ r.length := List.length_pos.2 hne
  have htick : ∀ p, charAt ("```".data ++ r ++ "```".data) p = some '`' →
      p < 3 ∨ (r.length + 3 ≤ p ∧ p ≤ r.length + 5) := by
    intro p hp
    rcases tickAt _ r _ hr p hp with ⟨hlt, _⟩ | ⟨hge, hc⟩
    · left; rw [hu3] at hlt; exact hlt
    · right
      rw [hu3] at hge
      have hb := charAt_lt _ _ _ hc
      rw [hu3] at hb
      exact ⟨by omega, by omega⟩
  have hA : ∀ k, k ≤ ("```".data ++ r ++ "```".data).length →
      leadsWith "```json\n".data (("```".data ++ r ++ "```".data).drop k) = false := by
    intro k hk
    cases h : leadsWith "```json\n".data (("```".data ++ r ++ "```".data).drop k) with
    | false => rfl
    | true =>
      exfalso
      have e0 : charAt ("```".data ++ r ++ "```".data) k = some '`' := by
        have h0 := leadsWith_charAt h 0 (by decide)
        rw [charAt_drop, Nat.add_zero] at h0
        rw [h0]; rfl
      have e1 : charAt ("```".data ++ r ++ "```".data) (k + 1) = some '`' := by
        have h0 := leadsWith_charAt h 1 (by decide)
        rw [charAt_drop] at h0
        rw [h0]; rfl
      have e2 : charAt ("```".data ++ r ++ "```".data) (k + 2) = some '`' := by
        have h0 := leadsWith_charAt h 2 (by decide)
        rw [charAt_drop] at h0
        rw [h0]; rfl
      have e3 : charAt ("```".data ++ r ++ "```".data) (k + 3) = some 'j' := by
        have h0 := leadsWith_charAt h 3 (by decide)
        rw [charAt_drop] at h0
        rw [h0]; rfl
      by_cases hk0 : k = 0
      · subst hk0
        rw [List.drop_zero] at h
        have h2 : leadsWith "json\n".data (r ++ "```".data) = true := by
          have hsplit : leadsWith ("```".data ++ "json\n".data)
              ("```".data ++ (r ++ "```".data)) = true := by
            rw [show "```".data ++ "json\n".data = "```json\n".data from rfl,
              ← List.append_assoc]
            exact h
          rwa [leadsWith_cancel] at hsplit
        by_cases h5 : 5 ≤ r.length
        · rw [leadsWith_of_long _ _ _
            (by rw [show ("json\n".data).length = 5 from rfl]; omega)] at h2
          rw [h2] at hnj
          exact Bool.noConfusion hnj
        · have hcc := leadsWith_charAt h2 r.length
            (by rw [show ("json\n".data).length = 5 from rfl]; omega)
          rw [charAt_append_right r "```".data r.length (Nat.le_refl _),
            Nat.sub_self] at hcc
          have hjc : charAt "json\n".data r.length = some '`' := by
            rw [← hcc]; rfl
          have hfj : ∀ p, 1 ≤ p → p < 5 → charAt "json\n".data p ≠ some '`' := by decide
          exact hfj r.length (by omega) (by omega) hjc
      · have hb3 : k + 3 < r.length + 6 := by
          have := charAt_lt _ _ _ e3
          rw [hslen] at this
          exact this
        have t0 := htick k e0
        have t1 := htick (k + 1) e1
        have t2 := htick (k + 2) e2
        omega
  have hjle : r.length + 3 ≤ ("```".data ++ r ++ "```".data).length := by
    rw [hslen]; omega
  have hj : leadsWith "```".data
      (("```".data ++ r ++ "```".data).drop (r.length + 3)) = true := by
    rw [show r.length + 3 = ("```".data ++ r).length from by rw [hurlen], dropAppendLen]
    exact leadsWith_self _
  have hjmax : ∀ k, k ≤ ("```".data ++ r ++ "```".data).length →
      leadsWith "```".data (("```".data ++ r ++ "```".data).drop k) = true →
      k ≤ r.length + 3 := by
    intro k hk hlw
    have e2 : charAt ("```".data ++ r ++ "```".data) (k + 2) = some '`' := by
      have h0 := leadsWith_charAt hlw 2 (by decide)
      rw [charAt_drop] at h0
      rw [h0]; rfl
    have := htick (k + 2) e2
    omega
  have ha : leadsWith "```".data ("```".data ++ r ++ "```".data) = true := by
    rw [List.append_assoc]
    exact leadsWith_append _ _
  have hal : ("```".data).length ≤ r.length + 3 := by rw [hu3]; omega
  have hmain := greedy_eval _ _ _ (r.length + 3) hjle hj hjmax ha hal
  have hint : ((("```".data ++ r ++ "```".data).drop
      (("```".data).length)).take (r.length + 3 - ("```".data).length)) = r := by
    rw [List.append_assoc, dropAppendLen, hu3, Nat.add_sub_cancel, takeAppendLen]
  rw [hint] at hmain
  have hnone : greedyMatch ("```".data ++ r ++ "```".data)
      "```json\n".data "\n```".data = none := greedy_noA _ _ _ hA
  unfold stripFence
  rw [hnone, hmain]

theorem dropWhileWsAppend (w x : List Char) (hw : ∀ c ∈ w, isJsWsChar c = true) :
    (w ++ x).dropWhile isJsWsChar = x.dropWhile isJsWsChar := by
  induction w with
  | nil => rfl
  | cons a w ih =>
    have ha : isJsWsChar a = true := hw a (List.mem_cons_self a w)
    rw [List.cons_append, List.dropWhile_cons, if_pos ha]
    exact ih (fun c hc => hw c (List.mem_cons_of_mem a hc))

theorem dropWhileAllNil (w : List Char) (hw : ∀ c ∈ w, isJsWsChar c = true) :
    w.dropWhile isJsWsChar = [] := by
  have := dropWhileWsAppend w [] hw
  simpa using this

theorem dropWhileNilAll (w : List Char) (h : w.dropWhile isJsWsChar = []) :
    ∀ c ∈ w, isJsWsChar c = true := by
  induction w with
  | nil => intro c hc; exact absurd hc (List.not_mem_nil c)
  | cons a w ih =>
    intro c hc
    rw [List.dropWhile_cons] at h
    by_cases ha : isJsWsChar a = true
    · rcases List.mem_cons.1 hc with rfl | hc2
      · exact ha
      · rw [if_pos ha] at h
        exact ih h c hc2
    · rw [if_neg ha] at h
      exact absurd h (List.cons_ne_nil a w)

theorem dropTrailAppendWs (x w : List Char) (hw : ∀ c ∈ w, isJsWsChar c = true) :
    dropTrail (x ++ w) = dropTrail x := by
  unfold dropTrail
  rw [List.reverse_append, dropWhileWsAppend _ _ (fun c hc => hw c (List.mem_reverse.1 hc))]

theorem trimLeadAppendNe (x w : List Char) (hx : trimLead x ≠ []) :
    trimLead (x ++ w) = trimLead x ++ w := by
  unfold trimLead at *
  induction x with
  | nil => exact absurd rfl hx
  | cons a x ih =>
    by_cases ha : isJsWsChar a = true
    · rw [List.cons_append, List.dropWhile_cons, if_pos ha,
        List.dropWhile_cons, if_pos ha]
      rw [List.dropWhile_cons, if_pos ha] at hx
      exact ih hx
    · rw [List.cons_append, List.dropWhile_cons, if_neg ha,
        List.dropWhile_cons, if_neg ha, List.cons_append]

theorem jsTrimWsWrap (w1 r w2 : List Char)
    (h1 : ∀ c ∈ w1, isJsWsChar c = true) (h2 : ∀ c ∈ w2, isJsWsChar c = true) :
    jsTrim (w1 ++ r ++ w2) = jsTrim r := by
  unfold jsTrim
  rw [List.append_assoc,
    show trimLead (w1 ++ (r ++ w2)) = trimLead (r ++ w2) from dropWhileWsAppend _ _ h1]
  by_cases hx : trimLead r = []
  · have hrws : ∀ c ∈ r, isJsWsChar c = true := dropWhileNilAll r hx
    rw [show trimLead (r ++ w2) = trimLead w2 from dropWhileWsAppend _ _ hrws]
    rw [show trimLead w2 = [] from dropWhileAllNil w2 h2, hx]
  · rw [trimLeadAppendNe _ _ hx, dropTrailAppendWs _ _ h2]

theorem dropWhileAppendTail (l : List Char) (a : Char) (ha : isJsWsChar a = false) :
    ∃ y, (l ++ [a]).dropWhile isJsWsChar = y ++ [a] := by
  induction l with
  | nil => exact ⟨[], by rw [List.nil_append, List.dropWhile_cons, ha]; rfl⟩
  | cons b l ih =>
    rw [List.cons_append, List.dropWhile_cons]
    by_cases hb : isJsWsChar b = true
    · rw [if_pos hb]
      exact ih
    · rw [if_neg hb]
      exact ⟨b :: l, rfl⟩

theorem dropTrailCons (a : Char) (l : List Char) (ha : isJsWsChar a = false) :
    ∃ y, dropTrail (a :: l) = a :: y := by
  unfold dropTrail
  rw [show (a :: l).reverse = l.reverse ++ [a] from by simp]
  obtain ⟨y, hy⟩ := dropWhileAppendTail l.reverse a ha
  rw [hy]
  exact ⟨y.reverse, by simp⟩

theorem parseJson_nil : parseJson ([] : List Char) = none := rfl

theorem parseValue_j (f : Nat) (z : List Char) : parseValue f ('j' :: z) = none := by
  cases f with
  | zero => rfl
  | succ f => rfl

theorem parseJson_j (z : List Char) : parseJson ('j' :: z) = none := by
  unfold parseJson
  rw [show skipWs ('j' :: z) = 'j' :: z from rfl, parseValue_j]

theorem parse_not_json_head (r : List Char) (j : Json)
    (hp : parseJson (jsTrim r) = some j) : leadsWith "json\n".data r = false := by
  cases h : leadsWith "json\n".data r with
  | false => rfl
  | true =>
    exfalso
    obtain ⟨t, rfl⟩ := (leadsWith_iff _ _).1 h
    have htl : trimLead ("json\n".data ++ t) = 'j' :: ("son\n".data ++ t) := rfl
    obtain ⟨y, hy⟩ := dropTrailCons 'j' ("son\n".data ++ t) (by decide)
    rw [show jsTrim ("json\n".data ++ t) =
      dropTrail ('j' :: ("son\n".data ++ t)) from congrArg dropTrail htl, hy,
      parseJson_j] at hp
    exact Option.noConfusion hp

/-- Whitespace characters are not backticks. -/
theorem wsNotTick (c : Char) (h : isJsWsChar c = true) : c ≠ '`' := by
  intro he
  subst he
  exact absurd h (by decide)

/-- Claim C3 (amended): for every reply r that contains no backtick
character and whose trimmed text parses as JSON, extraction yields the same
result whether r is wrapped in a json-tagged fence, wrapped in a plain
fence, surrounded by extra whitespace, or used verbatim.  (The backtick
restriction is forced by the counterexample: backtick runs inside the JSON
body can trigger the fence regexes of the unfenced reply.) -/
theorem claim_C3_amended (r w1 w2 : List Char) (j : Json)
    (hr : ∀ c ∈ r, c ≠ '`')
    (h1 : ∀ c ∈ w1, isJsWsChar c = true) (h2 : ∀ c ∈ w2, isJsWsChar c = true)
    (hp : parseJson (jsTrim r) = some j) :
    extractCardSet ("```json\n".data ++ r ++ "\n```".data) = extractCardSet r ∧
    extractCardSet ("```".data ++ r ++ "```".data) = extractCardSet r ∧
    extractCardSet (w1 ++ r ++ w2) = extractCardSet r := by
  have hsr : stripFence r = r := stripFence_tickFree r hr
  have hne : r ≠ [] := by
    rintro rfl
    rw [show jsTrim ([] : List Char) = [] from rfl, parseJson_nil] at hp
    exact Option.noConfusion hp
  have hnj := parse_not_json_head r j hp
  refine ⟨?_, ?_, ?_⟩
  · unfold extractCardSet extractStaged
    rw [stripFence_jsonWrap r hr, hsr]
  · unfold extractCardSet extractStaged
    rw [stripFence_plainWrap r hr hne hnj, hsr]
  · have hw : ∀ c ∈ w1 ++ r ++ w2, c ≠ '`' := by
      intro c hc
      rcases List.mem_append.1 hc with hc1 | hc2
      · rcases List.mem_append.1 hc1 with hc3 | hc4
        · exact wsNotTick c (h1 c hc3)
        · exact hr c hc4
      · exact wsNotTick c (h2 c hc2)
    unfold extractCardSet extractStaged
    rw [stripFence_tickFree _ hw, hsr, jsTrimWsWrap w1 r w2 h1 h2]

/-- Witness for claim C3 at a concrete backtick-free JSON reply and
single-space padding. -/
theorem claim_C3_witness :
    extractCardSet ("```json\n".data ++ "\x7b\"cards\":[]\x7d".data ++ "\n```".data) =
      extractCardSet "\x7b\"cards\":[]\x7d".data ∧
    extractCardSet ("```".data ++ "\x7b\"cards\":[]\x7d".data ++ "```".data) =
      extractCardSet "\x7b\"cards\":[]\x7d".data ∧
    extractCardSet (" ".data ++ "\x7b\"cards\":[]\x7d".data ++ " ".data) =
      extractCardSet "\x7b\"cards\":[]\x7d".data :=
  claim_C3_amended "\x7b\"cards\":[]\x7d".data " ".data " ".data
    (Json.obj [("cards".data, Json.arr [])])
    (by decide) (by decide) (by decide) rfl
